import Mathlib

/-!
Verification of the stock-control application (`src/app.py`).

The app is a Streamlit front end over three MongoDB collections:
`stock_items`, `stock_movements` and `users`.  We shallowly embed the
pure content of its operations:

* `get_items_with_current_stock` (app.py lines 143-222): loads all items
  and all movements, normalises movement types, aggregates signed
  quantities per `stock_item_id` (pandas groupby + left merge + fillna),
  and returns snapshots sorted by `(exhibitor_name, item_type)`.
  pandas' multi-key `sort_values` is a *stable* lexicographic sort with
  Python's code-point string order; we embed it as `List.mergeSort`
  (stable, same order on ASCII data).
* `create_user` / `authenticate_user` (lines 47-76): collections are
  lists of documents; `find_one` is `List.find?`; bcrypt's `hashpw` /
  `checkpw` are external library functions, kept as parameters.
* the Add-Movement save flow (lines 637-663): `insert_movement` appends
  a movement document and `items_col.update_one` overwrites the
  `location` of the first item matching `(exhibitor_name, item_type)`.

Mongo documents are schemaless, so fields that older records may lack
are `Option`s; `fillna` / `.get(...)` defaulting is `Option.getD`.
Stored values that pandas coerces (`astype(int)` on the `quantity`
column) are modelled by `QVal` below: `astype(int)` parses integer
strings and *raises* on non-numeric strings, which the embedding
renders as `Option.none` propagating to the whole aggregation.
-/

/-- Python's `str.strip()`: drop leading and trailing whitespace.
(Implemented over the character list so that it evaluates inside the
kernel; behaviour on ASCII data matches Python's.) -/
def pyStrip (s : String) : String :=
  ⟨((s.data.dropWhile Char.isWhitespace).reverse.dropWhile Char.isWhitespace).reverse⟩

/-- Python's `str.upper()` on ASCII data (pandas `.str.upper()`,
app.py line 185). -/
def pyUpper (s : String) : String :=
  ⟨s.data.map Char.toUpper⟩

/-- Accumulate the value of a digit run; `none` on a non-digit. -/
def digitsVal : List Char → Nat → Option Nat
  | [], acc => some acc
  | c :: cs, acc => if c.isDigit then digitsVal cs (acc * 10 + (c.toNat - 48)) else none

/-- Python's `int(string)` as used by pandas `astype(int)` on a string
cell: strip whitespace, optional sign, then a non-empty digit run;
anything else raises `ValueError`, modelled as `none`. -/
def pyToInt (s : String) : Option Int :=
  match (pyStrip s).data with
  | [] => none
  | '-' :: rest => if rest = [] then none else (digitsVal rest 0).map (fun n => -(n : Int))
  | '+' :: rest => if rest = [] then none else (digitsVal rest 0).map (fun n => (n : Int))
  | rest => (digitsVal rest 0).map (fun n => (n : Int))

/-- A raw stored value in the `quantity` field of a movement document:
absent/null (pandas `NaN`), an integer, or an arbitrary string. -/
inductive QVal where
  | qnull : QVal
  | qint : Int → QVal
  | qstr : String → QVal
deriving DecidableEq, Repr

/-- `df_mov["quantity"].fillna(0).astype(int)` applied to one cell
(app.py line 178): null becomes `0` (`fillna`), an integer stays, and a
string is parsed by `astype(int)` — Python raises `ValueError` on a
non-integer literal, modelled as `none`. -/
def parseQuantity : QVal → Option Int
  | QVal.qnull => some 0
  | QVal.qint n => some n
  | QVal.qstr s => pyToInt s

/-- Normalisation and sign mapping of `movement_type`
(app.py lines 181-191): strip whitespace, upper-case, then
`IN ↦ +1`, `OUT ↦ -1`, anything else `↦ 0` (the `.map ... .fillna(0)`). -/
def signOf (movement_type : String) : Int :=
  let norm := pyUpper (pyStrip movement_type)
  if norm = "IN" then 1 else if norm = "OUT" then -1 else 0

/-- A document of the `stock_movements` collection
(shape per `insert_movement`, app.py lines 240-254; `quantity` is kept
raw since older records may hold malformed values). -/
structure Movement where
  stock_item_id : String
  movement_date : String
  movement_type : String
  quantity : QVal
  notes : String
deriving DecidableEq, Repr

/-- A document of the `stock_items` collection
(shape per `insert_stock_item`, app.py lines 225-237; `open_stock` and
`location` may be absent on older documents, cf. the `fillna` at line
165 and the column-existence check at lines 168-171). -/
structure StockItem where
  id : String
  exhibitor_name : String
  item_type : String
  open_stock : Option Int
  location : Option String
deriving DecidableEq, Repr

/-- A document of the `users` collection (shape per `create_user`,
app.py lines 56-62; `password_hash` may be absent on a malformed
document, cf. `user.get("password_hash")` at line 70). -/
structure User where
  username : String
  password_hash : Option String
  is_admin : Bool
deriving DecidableEq, Repr

/-- One row of the DataFrame returned by `get_items_with_current_stock`
(the column selection at app.py lines 210-220). -/
structure Snapshot where
  id : String
  exhibitor_name : String
  item_type : String
  location : String
  open_stock : Int
  movement_delta : Int
  current_stock : Int
deriving DecidableEq, Repr

/-- One parsed movement row after lines 177-193 of app.py:
`(stock_item_id, delta)` with `delta = quantity * sign`.  Parsing the
quantity can fail (non-numeric string), failing the whole load. -/
def parseMovement (m : Movement) : Option (String × Int) :=
  (parseQuantity m.quantity).map (fun q => (m.stock_item_id, q * signOf m.movement_type))

/-- Columnwise coercion of the whole movement DataFrame: `astype(int)`
raises if any single row is malformed, so one failure is global. -/
def parseMovements : List Movement → Option (List (String × Int))
  | [] => some []
  | m :: ms =>
    match parseMovement m, parseMovements ms with
    | some p, some ps => some (p :: ps)
    | _, _ => none

/-- The per-key sum of `df_mov.groupby("stock_item_id")["delta"].sum()`
(app.py lines 195-198) for one key. -/
def groupSum (parsed : List (String × Int)) (key : String) : Int :=
  ((parsed.filter (fun p => p.1 = key)).map Prod.snd).sum

/-- Whether a key occurs in the grouped movement table at all. -/
def hasKey (parsed : List (String × Int)) (key : String) : Bool :=
  parsed.any (fun p => p.1 = key)

/-- The left merge of items against the grouped movement table followed
by `fillna(0)` (app.py lines 200-203): an item whose id appears as a
group key receives that group's sum, any other item receives `NaN`,
turned into `0` by `fillna`. -/
def mergedDelta (parsed : List (String × Int)) (key : String) : Int :=
  if hasKey parsed key then groupSum parsed key else 0

/-- The row built for one item (lines 163-171, 203, 208 of app.py). -/
def snapOf (parsed : List (String × Int)) (it : StockItem) : Snapshot :=
  let os := it.open_stock.getD 0
  let md := mergedDelta parsed it.id
  { id := it.id
    exhibitor_name := it.exhibitor_name
    item_type := it.item_type
    location := it.location.getD ""
    open_stock := os
    movement_delta := md
    current_stock := os + md }

/-- The comparator of `sort_values(by=["exhibitor_name", "item_type"])`
(app.py line 220): ascending lexicographic on the pair, Python
code-point string order. -/
def snapLE (a b : Snapshot) : Bool :=
  decide (a.exhibitor_name < b.exhibitor_name ∨
    (a.exhibitor_name = b.exhibitor_name ∧ a.item_type ≤ b.item_type))

/-- `get_items_with_current_stock` (app.py lines 143-222) as a function
of the two collections it reads.  `none` models the function raising
(pandas `astype(int)` on a non-numeric quantity).  The empty-catalog
early return (lines 150-161) happens before movements are touched. -/
def get_items_with_current_stock (items : List StockItem) (movements : List Movement) :
    Option (List Snapshot) :=
  if items = [] then some []
  else
    match parseMovements movements with
    | none => none
    | some parsed => some ((items.map (snapOf parsed)).mergeSort snapLE)

/-- The specification's per-item aggregate, written directly as a sum
over the movements referencing the item: Σ quantity·sign(type).
(Used to compare the groupby/merge pipeline against the spec formula;
quantities are the parsed values, an unparseable one read as 0.) -/
def specDelta (movements : List Movement) (itemId : String) : Int :=
  ((movements.filter (fun m => m.stock_item_id = itemId)).map
    (fun m => (parseQuantity m.quantity).getD 0 * signOf m.movement_type)).sum

/-- The specification's snapshot for one item. -/
def specSnap (movements : List Movement) (it : StockItem) : Snapshot :=
  let os := it.open_stock.getD 0
  let md := specDelta movements it.id
  { id := it.id
    exhibitor_name := it.exhibitor_name
    item_type := it.item_type
    location := it.location.getD ""
    open_stock := os
    movement_delta := md
    current_stock := os + md }

/-- A Python value as could be passed for the `is_admin` parameter of
`create_user` (the code applies `bool(is_admin)` at app.py line 60, so
the argument need not already be a boolean). -/
inductive PyVal where
  | pybool : Bool → PyVal
  | pyint : Int → PyVal
  | pystr : String → PyVal
  | pynone : PyVal
deriving DecidableEq, Repr

/-- Python's `bool(...)` truthiness coercion on `PyVal`. -/
def pytruthy : PyVal → Bool
  | PyVal.pybool b => b
  | PyVal.pyint n => decide (n ≠ 0)
  | PyVal.pystr s => decide (s ≠ "")
  | PyVal.pynone => false

/-- `create_user` (app.py lines 47-62) as a transformer of the `users`
collection.  `users_col.find_one({"username": username})` is the first
document whose username matches; if one exists the function raises
`ValueError("Username already exists.")` before any write, otherwise it
inserts one document whose hash is `bcrypt.hashpw` of the password.
`hashpw` is the external bcrypt call, passed in as a function. -/
def create_user (hashpw : String → String) (username password : String)
    (is_admin : PyVal) (users : List User) : Except String Unit × List User :=
  match users.find? (fun u => u.username == username) with
  | some _ => (Except.error "Username already exists.", users)
  | none =>
    (Except.ok (),
      users ++ [{ username := username
                  password_hash := some (hashpw password)
                  is_admin := pytruthy is_admin }])

/-- `authenticate_user` (app.py lines 65-76).  `checkpw` is the external
`bcrypt.checkpw`, passed in as a function.  An absent or empty stored
hash is falsy in Python (`if not stored_hash`), so it fails the login
before `checkpw` is ever called. -/
def authenticate_user (checkpw : String → String → Bool)
    (users : List User) (username password : String) : Bool × Option User :=
  match users.find? (fun u => u.username == username) with
  | none => (false, none)
  | some user =>
    match user.password_hash with
    | none => (false, none)
    | some stored_hash =>
      if stored_hash = "" then (false, none)
      else if checkpw password stored_hash then (true, some user)
      else (false, none)

/-- The comparator of the item DataFrame's sort: same keys as `snapLE`
(a snapshot carries its item's `exhibitor_name` and `item_type`
verbatim), acting on raw item documents. -/
def itemLE (a b : StockItem) : Bool :=
  decide (a.exhibitor_name < b.exhibitor_name ∨
    (a.exhibitor_name = b.exhibitor_name ∧ a.item_type ≤ b.item_type))

/-- The item catalog in the display order of `items_df` on the Add
Movement page (which shows `get_items_with_current_stock()`, sorted by
exhibitor then type; pandas' multi-key sort is stable). -/
def sortItems (items : List StockItem) : List StockItem :=
  items.mergeSort itemLE

/-- The item whose id the Add Movement page submits: the first row of
`items_df` matching the chosen exhibitor and item type
(`selected_row.iloc[0]`, app.py lines 603-609 and 633-635). -/
def selected_item (items : List StockItem) (ex ty : String) : Option StockItem :=
  ((sortItems items).filter
    (fun it => it.exhibitor_name == ex && it.item_type == ty)).head?

/-- `items_col.update_one(filter, set location)` (app.py lines 655-661):
MongoDB's `update_one` modifies only the *first* document matching the
filter, in collection order; with no match it does nothing. -/
def update_one_location : List StockItem → String → String → String → List StockItem
  | [], _, _, _ => []
  | it :: rest, ex, ty, loc =>
    if it.exhibitor_name = ex ∧ it.item_type = ty then
      { it with location := some loc } :: rest
    else
      it :: update_one_location rest ex ty loc

/-- The two collections the Add Movement save touches. -/
structure AppState where
  items : List StockItem
  movements : List Movement
deriving Repr

/-- The movement document built by `insert_movement`
(app.py lines 240-254, called at 646-652 with `notes.strip()` and
`int(quantity)` applied by the caller/page). -/
def newMovement (stock_item_id movement_date movement_type : String)
    (quantity : Int) (notes : String) : Movement :=
  { stock_item_id := stock_item_id
    movement_date := movement_date
    movement_type := movement_type
    quantity := QVal.qint quantity
    notes := pyStrip notes }

/-- The successful save path of the Add Movement page (app.py lines
637-663): when a matching item was found, append one movement document
referencing its id, then overwrite the location of the first item
matching `(exhibitor, item_type)`.  When no item matches, nothing is
written (the page shows an error instead). -/
def add_movement_save (st : AppState) (ex ty movement_type : String)
    (quantity : Int) (movement_date notes location_box : String) : AppState :=
  match selected_item st.items ex ty with
  | none => st
  | some it =>
    { items := update_one_location st.items ex ty (pyStrip location_box)
      movements := st.movements ++
        [newMovement it.id movement_date movement_type quantity notes] }

/-! ## Relating the groupby/merge pipeline to the direct sum -/

/-- The parsed row of a movement whose quantity parses (the value
`parseMovement` yields on success). -/
def parsedOf (m : Movement) : String × Int :=
  (m.stock_item_id, (parseQuantity m.quantity).getD 0 * signOf m.movement_type)

theorem parseMovement_eq_some (m : Movement)
    (h : (parseQuantity m.quantity).isSome) : parseMovement m = some (parsedOf m) := by
  rcases hq : parseQuantity m.quantity with _ | q
  · rw [hq] at h; cases h
  · simp [parseMovement, parsedOf, hq]

theorem parseMovements_eq_some {movements : List Movement}
    (h : ∀ m ∈ movements, (parseQuantity m.quantity).isSome) :
    parseMovements movements = some (movements.map parsedOf) := by
  induction movements with
  | nil => rfl
  | cons m ms ih =>
    rw [List.map_cons, parseMovements,
      parseMovement_eq_some m (h m (List.mem_cons_self m ms)),
      ih (fun x hx => h x (List.mem_cons_of_mem m hx))]

theorem parseMovements_some_inv {movements : List Movement}
    {parsed : List (String × Int)} (h : parseMovements movements = some parsed) :
    parsed = movements.map parsedOf := by
  induction movements generalizing parsed with
  | nil => cases h; rfl
  | cons m ms ih =>
    rw [parseMovements] at h
    rcases hm : parseMovement m with _ | p <;> rw [hm] at h
    · cases h
    · rcases hms : parseMovements ms with _ | ps <;> rw [hms] at h
      · cases h
      · cases h
        have hp : p = parsedOf m := by
          rcases hq : parseQuantity m.quantity with _ | q <;>
            simp [parseMovement, hq, parsedOf] at hm ⊢ <;> simp [hm.symm]
        rw [List.map_cons, hp, ih hms]

theorem parseMovements_eq_none {movements : List Movement} :
    parseMovements movements = none ↔
      ∃ m ∈ movements, parseQuantity m.quantity = none := by
  induction movements with
  | nil => simp [parseMovements]
  | cons m ms ih =>
    rw [parseMovements]
    rcases hm : parseMovement m with _ | p
    · have : parseQuantity m.quantity = none := by
        rcases hq : parseQuantity m.quantity with _ | q <;> simp [parseMovement, hq] at hm ⊢
      simp [this]
    · have : parseQuantity m.quantity ≠ none := by
        rcases hq : parseQuantity m.quantity with _ | q <;>
          simp [parseMovement, hq] at hm ⊢
      rcases hms : parseMovements ms with _ | ps <;> simp [hms] at ih ⊢ <;>
        simpa [this] using ih

theorem groupSum_map_parsedOf (movements : List Movement) (itemId : String) :
    groupSum (movements.map parsedOf) itemId = specDelta movements itemId := by
  simp only [groupSum, specDelta, List.filter_map, List.map_map]
  congr 1

theorem mergedDelta_eq_groupSum (parsed : List (String × Int)) (key : String) :
    mergedDelta parsed key = groupSum parsed key := by
  unfold mergedDelta
  cases hk : hasKey parsed key
  · have hnil : parsed.filter (fun p => decide (p.1 = key)) = [] := by
      rw [List.filter_eq_nil_iff]
      intro p hp hpk
      have hkey : hasKey parsed key = true := by
        simp only [hasKey, List.any_eq_true]
        exact ⟨p, hp, hpk⟩
      rw [hk] at hkey
      cases hkey
    rw [if_neg (by simp), groupSum, hnil]
    rfl
  · simp

theorem snapOf_map_parsedOf (movements : List Movement) (it : StockItem) :
    snapOf (movements.map parsedOf) it = specSnap movements it := by
  simp [snapOf, specSnap, mergedDelta_eq_groupSum, groupSum_map_parsedOf]

theorem snapOf_parsedOf_funext (movements : List Movement) :
    snapOf (movements.map parsedOf) = specSnap movements :=
  funext (snapOf_map_parsedOf movements)

/-- C1: For every item catalog and movement log whose stored
quantities are all well formed, `get_items_with_current_stock` returns
a view that is (up to the final sort) exactly one snapshot per item,
in which `movement_delta` is the sum over the movements referencing
that item of `quantity` times the sign of the trimmed, upper-cased
`movement_type` (`IN ↦ +1`, `OUT ↦ -1`, other `↦ 0`), an item with no
movements has `movement_delta = 0` and is still present, and every row
satisfies `current_stock = open_stock + movement_delta`. -/
theorem stock_view_formula (items : List StockItem) (movements : List Movement)
    (h : ∀ m ∈ movements, (parseQuantity m.quantity).isSome) :
    ∃ out, get_items_with_current_stock items movements = some out ∧
      out.Perm (items.map (specSnap movements)) ∧
      (∀ it ∈ items, specSnap movements it ∈ out) ∧
      (∀ s ∈ out, s.current_stock = s.open_stock + s.movement_delta) := by
  by_cases hi : items = []
  · exact ⟨[], by simp [get_items_with_current_stock, hi], by simp [hi], by simp [hi], by simp⟩
  · refine ⟨(items.map (specSnap movements)).mergeSort snapLE, ?_, ?_, ?_, ?_⟩
    · have hp := parseMovements_eq_some h
      simp [get_items_with_current_stock, hi, hp, snapOf_parsedOf_funext]
    · exact List.mergeSort_perm _ _
    · intro it hit
      exact List.mem_mergeSort.mpr (List.mem_map_of_mem _ hit)
    · intro s hs
      rcases List.mem_map.mp (List.mem_mergeSort.mp hs) with ⟨it, _, rfl⟩
      simp [specSnap]

/-- Witness for `stock_view_formula`: a catalog of one item with
opening stock 10 and movements IN 5 and OUT 3. -/
theorem stock_view_formula_witness :
    ∃ out,
      get_items_with_current_stock
        [⟨"id1", "Acme", "Book", some 10, some "Box 1"⟩]
        [⟨"id1", "2025-01-01", "IN", QVal.qint 5, ""⟩,
         ⟨"id1", "2025-01-02", "OUT", QVal.qint 3, ""⟩] = some out ∧
      out.Perm
        ([⟨"id1", "Acme", "Book", some 10, some "Box 1"⟩].map
          (specSnap
            [⟨"id1", "2025-01-01", "IN", QVal.qint 5, ""⟩,
             ⟨"id1", "2025-01-02", "OUT", QVal.qint 3, ""⟩])) ∧
      (∀ it ∈ [(⟨"id1", "Acme", "Book", some 10, some "Box 1"⟩ : StockItem)],
        specSnap
          [⟨"id1", "2025-01-01", "IN", QVal.qint 5, ""⟩,
           ⟨"id1", "2025-01-02", "OUT", QVal.qint 3, ""⟩] it ∈ out) ∧
      (∀ s ∈ out, s.current_stock = s.open_stock + s.movement_delta) :=
  stock_view_formula _ _ (by decide)

/-! ## Reordering invariance -/

theorem specDelta_perm {movs movs' : List Movement} (h : movs.Perm movs')
    (itemId : String) : specDelta movs itemId = specDelta movs' itemId :=
  List.Perm.sum_eq ((h.filter _).map _)

/-- C2: The stock view is invariant under any reordering of the
movement log: for permuted logs, `get_items_with_current_stock`
returns identical results (in particular each item's `movement_delta`
and `current_stock` are unchanged). -/
theorem stock_view_reorder_invariant (items : List StockItem)
    {movs movs' : List Movement} (hp : movs.Perm movs') :
    get_items_with_current_stock items movs =
      get_items_with_current_stock items movs' := by
  by_cases hi : items = []
  · simp [get_items_with_current_stock, hi]
  · by_cases hbad : ∃ m ∈ movs, parseQuantity m.quantity = none
    · have h1 : parseMovements movs = none := parseMovements_eq_none.mpr hbad
      have h2 : parseMovements movs' = none := parseMovements_eq_none.mpr (by
        obtain ⟨m, hm, hq⟩ := hbad
        exact ⟨m, hp.subset hm, hq⟩)
      simp [get_items_with_current_stock, hi, h1, h2]
    · have hall : ∀ m ∈ movs, (parseQuantity m.quantity).isSome := by
        intro m hm
        rcases hq : parseQuantity m.quantity with _ | q
        · exact absurd ⟨m, hm, hq⟩ hbad
        · simp
      have hall' : ∀ m ∈ movs', (parseQuantity m.quantity).isSome := fun m hm =>
        hall m (hp.symm.subset hm)
      have e1 := parseMovements_eq_some hall
      have e2 := parseMovements_eq_some hall'
      have hsnap : specSnap movs = specSnap movs' := by
        funext it
        simp [specSnap, specDelta_perm hp]
      simp [get_items_with_current_stock, hi, e1, e2, snapOf_parsedOf_funext, hsnap]

/-- Witness for `stock_view_reorder_invariant`: swapping an IN and an
OUT movement leaves the view unchanged. -/
theorem stock_view_reorder_invariant_witness :
    get_items_with_current_stock
      [⟨"id1", "Acme", "Book", some 10, some "Box 1"⟩]
      [⟨"id1", "2025-01-02", "OUT", QVal.qint 2, ""⟩,
       ⟨"id1", "2025-01-01", "IN", QVal.qint 5, ""⟩] =
    get_items_with_current_stock
      [⟨"id1", "Acme", "Book", some 10, some "Box 1"⟩]
      [⟨"id1", "2025-01-01", "IN", QVal.qint 5, ""⟩,
       ⟨"id1", "2025-01-02", "OUT", QVal.qint 2, ""⟩] :=
  stock_view_reorder_invariant _ (List.Perm.swap _ _ _)

/-! ## Malformed stored quantities -/

/-- C3: Evaluation at the failing input: a single stored movement
whose quantity is the non-numeric string `"five"` makes
`get_items_with_current_stock` fail (pandas `astype(int)` raises
`ValueError`), instead of contributing 0 as the specification
requires. -/
theorem malformed_quantity_fails :
    get_items_with_current_stock
      [⟨"id1", "Acme", "Book", some 10, some "Box 1"⟩]
      [⟨"id1", "2025-01-01", "IN", QVal.qstr "five", ""⟩] = none := by
  decide

/-! ## Negative stock is surfaced, not clamped -/

/-- C4: Whenever the view is produced and an item's net movements
drag it below zero (`open_stock + Σ signed quantities < 0`), the
returned snapshot carries that negative `current_stock` as-is: no
clamping at zero. -/
theorem negative_stock_not_clamped (items : List StockItem)
    (movements : List Movement) (it : StockItem) (out : List Snapshot)
    (hout : get_items_with_current_stock items movements = some out)
    (hit : it ∈ items)
    (hneg : it.open_stock.getD 0 + specDelta movements it.id < 0) :
    ∃ s ∈ out, s.id = it.id ∧
      s.current_stock = it.open_stock.getD 0 + specDelta movements it.id ∧
      s.current_stock < 0 := by
  have hi : items ≠ [] := by
    rintro rfl
    cases hit
  rw [get_items_with_current_stock, if_neg hi] at hout
  rcases hpm : parseMovements movements with _ | parsed <;> rw [hpm] at hout
  · cases hout
  · cases hout
    have hparsed := parseMovements_some_inv hpm
    subst hparsed
    refine ⟨specSnap movements it, ?_, ?_, ?_, ?_⟩
    · refine List.mem_mergeSort.mpr ?_
      rw [snapOf_parsedOf_funext]
      exact List.mem_map_of_mem _ hit
    · rfl
    · simp [specSnap]
    · simpa [specSnap] using hneg

/-- Witness for `negative_stock_not_clamped`: opening stock 0 with a
single OUT of 5 yields `current_stock = -5` in the returned view. -/
theorem negative_stock_not_clamped_witness :
    ∃ s ∈ [(⟨"id1", "Acme", "Book", "Box 1", 0, -5, -5⟩ : Snapshot)],
      s.id = "id1" ∧
      s.current_stock =
        (Option.some (0 : Int)).getD 0 +
          specDelta [⟨"id1", "2025-01-01", "OUT", QVal.qint 5, ""⟩] "id1" ∧
      s.current_stock < 0 :=
  negative_stock_not_clamped
    [⟨"id1", "Acme", "Book", some 0, some "Box 1"⟩]
    [⟨"id1", "2025-01-01", "OUT", QVal.qint 5, ""⟩]
    ⟨"id1", "Acme", "Book", some 0, some "Box 1"⟩
    [⟨"id1", "Acme", "Book", "Box 1", 0, -5, -5⟩]
    (by
      have h1 :
          get_items_with_current_stock
            [⟨"id1", "Acme", "Book", some 0, some "Box 1"⟩]
            [⟨"id1", "2025-01-01", "OUT", QVal.qint 5, ""⟩] =
          some ([(⟨"id1", "Acme", "Book", "Box 1", 0, -5, -5⟩ : Snapshot)].mergeSort snapLE) :=
        rfl
      rw [h1, List.mergeSort_singleton])
    (by decide)
    (by decide)

/-! ## Output ordering -/

theorem snapLE_trans : ∀ (a b c : Snapshot), snapLE a b → snapLE b c → snapLE a c := by
  intro a b c hab hbc
  simp only [snapLE, decide_eq_true_eq] at hab hbc ⊢
  rcases hab with h1 | ⟨h1, h2⟩ <;> rcases hbc with h3 | ⟨h3, h4⟩
  · exact Or.inl (lt_trans h1 h3)
  · exact Or.inl (h3 ▸ h1)
  · exact Or.inl (h1 ▸ h3)
  · exact Or.inr ⟨h1.trans h3, le_trans h2 h4⟩

theorem snapLE_total : ∀ (a b : Snapshot), snapLE a b || snapLE b a := by
  intro a b
  simp only [snapLE, Bool.or_eq_true, decide_eq_true_eq]
  rcases lt_trichotomy a.exhibitor_name b.exhibitor_name with h | h | h
  · exact Or.inl (Or.inl h)
  · rcases le_total a.item_type b.item_type with h2 | h2
    · exact Or.inl (Or.inr ⟨h, h2⟩)
    · exact Or.inr (Or.inr ⟨h.symm, h2⟩)
  · exact Or.inr (Or.inl h)

/-- C8: Every produced stock view is sorted primarily by
`exhibitor_name` and secondarily by `item_type`, both ascending, in the
(case-sensitive, code-point lexicographic) string order. -/
theorem stock_view_sorted (items : List StockItem) (movements : List Movement)
    (out : List Snapshot)
    (hout : get_items_with_current_stock items movements = some out) :
    out.Pairwise (fun a b =>
      a.exhibitor_name < b.exhibitor_name ∨
        (a.exhibitor_name = b.exhibitor_name ∧ a.item_type ≤ b.item_type)) := by
  by_cases hi : items = []
  · rw [get_items_with_current_stock, if_pos hi] at hout
    cases hout
    exact List.Pairwise.nil
  · rw [get_items_with_current_stock, if_neg hi] at hout
    rcases hpm : parseMovements movements with _ | parsed <;> rw [hpm] at hout
    · cases hout
    · cases hout
      have hs := List.sorted_mergeSort snapLE_trans snapLE_total
        (items.map (snapOf parsed))
      exact hs.imp (fun h => by simpa only [snapLE, decide_eq_true_eq] using h)

/-- Witness for `stock_view_sorted`: the one-item view is sorted. -/
theorem stock_view_sorted_witness :
    List.Pairwise
      (fun a b : Snapshot =>
        a.exhibitor_name < b.exhibitor_name ∨
          (a.exhibitor_name = b.exhibitor_name ∧ a.item_type ≤ b.item_type))
      [(⟨"id1", "Acme", "Book", "Box 1", 10, 0, 10⟩ : Snapshot)] :=
  stock_view_sorted
    [⟨"id1", "Acme", "Book", some 10, some "Box 1"⟩] []
    [⟨"id1", "Acme", "Book", "Box 1", 10, 0, 10⟩]
    (by
      have h1 :
          get_items_with_current_stock
            [⟨"id1", "Acme", "Book", some 10, some "Box 1"⟩] [] =
          some ([(⟨"id1", "Acme", "Book", "Box 1", 10, 0, 10⟩ : Snapshot)].mergeSort snapLE) :=
        rfl
      rw [h1, List.mergeSort_singleton])

/-! ## User management -/

theorem find?_username_of_nodup (users : List User) (u : User)
    (hnd : (users.map User.username).Nodup) (hu : u ∈ users) :
    users.find? (fun v => v.username == u.username) = some u := by
  induction users with
  | nil => cases hu
  | cons v rest ih =>
    rw [List.map_cons, List.nodup_cons] at hnd
    rcases List.mem_cons.mp hu with rfl | hmem
    · rw [List.find?_cons_of_pos _ (by simp)]
    · have hne : (v.username == u.username) = false := by
        rw [beq_eq_false_iff_ne]
        intro he
        exact hnd.1 (he ▸ List.mem_map_of_mem User.username hmem)
      rw [List.find?_cons_of_neg _ (by simp [hne])]
      exact ih hnd.2 hmem

/-- C5: `create_user` with a username that already exists raises
`ValueError("Username already exists.")` and performs no insert: the
users collection (in particular the existing record's hash and admin
flag) is returned unchanged. -/
theorem create_user_duplicate (hashpw : String → String)
    (username password : String) (adm : PyVal) (users : List User)
    (hdup : ∃ u ∈ users, u.username = username) :
    create_user hashpw username password adm users =
      (Except.error "Username already exists.", users) := by
  obtain ⟨u, hu, he⟩ := hdup
  have hs : (users.find? (fun v => v.username == username)).isSome :=
    List.find?_isSome.mpr ⟨u, hu, by simp [he]⟩
  rcases hf : users.find? (fun v => v.username == username) with _ | v
  · rw [hf] at hs
    cases hs
  · simp [create_user, hf]

/-- Witness for `create_user_duplicate` on a one-user collection. -/
theorem create_user_duplicate_witness :
    create_user (fun p => p) "alice" "newpw" (PyVal.pybool false)
        [⟨"alice", some "oldhash", true⟩] =
      (Except.error "Username already exists.", [⟨"alice", some "oldhash", true⟩]) :=
  create_user_duplicate (fun p => p) "alice" "newpw" (PyVal.pybool false)
    [⟨"alice", some "oldhash", true⟩] (by decide)

/-- C6: For a stored user (usernames unique, stored hash present
and non-empty), authentication with that username returns failure with
no user object when `bcrypt.checkpw` rejects the password, and success
with the stored record (its `is_admin` flag verbatim) when it
accepts. -/
theorem authenticate_user_checks_password (checkpw : String → String → Bool)
    (users : List User) (u : User) (h : String) (password : String)
    (hnd : (users.map User.username).Nodup) (hu : u ∈ users)
    (hhash : u.password_hash = some h) (hne : h ≠ "") :
    authenticate_user checkpw users u.username password =
      (checkpw password h, if checkpw password h then some u else none) := by
  have hf := find?_username_of_nodup users u hnd hu
  rcases hc : checkpw password h <;> simp [authenticate_user, hf, hhash, hne, hc]

/-- Witness for `authenticate_user_checks_password`. -/
theorem authenticate_user_checks_password_witness :
    authenticate_user (fun p s => p == "pw" && s == "hash")
        [⟨"alice", some "hash", true⟩] "alice" "wrong" =
      ((fun p s => p == "pw" && s == "hash") "wrong" "hash",
        if (fun p s => p == "pw" && s == "hash") "wrong" "hash" then
          some ⟨"alice", some "hash", true⟩
        else none) :=
  authenticate_user_checks_password (fun p s => p == "pw" && s == "hash")
    [⟨"alice", some "hash", true⟩] ⟨"alice", some "hash", true⟩ "hash" "wrong"
    (by decide) (by decide) rfl (by decide)

/-- C9: A stored user document whose `password_hash` is missing or
empty fails authentication for every password (`if not stored_hash`),
with no exception raised. -/
theorem authenticate_user_missing_hash (checkpw : String → String → Bool)
    (users : List User) (username : String) (u : User)
    (hf : users.find? (fun v => v.username == username) = some u)
    (hh : u.password_hash = none ∨ u.password_hash = some "") :
    ∀ password, authenticate_user checkpw users username password = (false, none) := by
  intro password
  rcases hh with hh | hh <;> simp [authenticate_user, hf, hh]

/-- Witness for `authenticate_user_missing_hash`. -/
theorem authenticate_user_missing_hash_witness :
    authenticate_user (fun _ _ => true) [⟨"bob", none, false⟩] "bob" "anything" =
      (false, none) :=
  authenticate_user_missing_hash (fun _ _ => true) [⟨"bob", none, false⟩] "bob"
    ⟨"bob", none, false⟩ (by decide) (Or.inl rfl) "anything"

/-- C10: Creating a fresh username and then authenticating with the
same password succeeds, and the authenticated record's `is_admin` flag
is the boolean coercion (`bool(...)`) of the `is_admin` argument passed
at creation.  (`hne`/`hchk` are the bcrypt facts: a hash is never the
empty string and `checkpw` accepts the password it was hashed from.) -/
theorem create_then_authenticate (hashpw : String → String)
    (checkpw : String → String → Bool) (username password : String)
    (adm : PyVal) (users : List User)
    (hnew : ∀ u ∈ users, u.username ≠ username)
    (hne : hashpw password ≠ "")
    (hchk : checkpw password (hashpw password) = true) :
    create_user hashpw username password adm users =
      (Except.ok (),
        users ++ [{ username := username
                    password_hash := some (hashpw password)
                    is_admin := pytruthy adm }]) ∧
    authenticate_user checkpw
        (users ++ [{ username := username
                     password_hash := some (hashpw password)
                     is_admin := pytruthy adm }]) username password =
      (true, some { username := username
                    password_hash := some (hashpw password)
                    is_admin := pytruthy adm }) := by
  have hf : users.find? (fun v => v.username == username) = none :=
    List.find?_eq_none.mpr (fun u hu => by simp [hnew u hu])
  constructor
  · simp [create_user, hf]
  · simp [authenticate_user, List.find?_append, hf, hne, hchk]

/-- Witness for `create_then_authenticate` on an empty collection with
an admin-truthy argument. -/
theorem create_then_authenticate_witness :
    create_user (fun _ => "h") "carol" "pw" (PyVal.pyint 1) [] =
      (Except.ok (),
        [] ++ [{ username := "carol"
                 password_hash := some ((fun _ => "h") "pw")
                 is_admin := pytruthy (PyVal.pyint 1) }]) ∧
    authenticate_user (fun p s => p == "pw" && s == "h")
        ([] ++ [{ username := "carol"
                  password_hash := some ((fun _ => "h") "pw")
                  is_admin := pytruthy (PyVal.pyint 1) }]) "carol" "pw" =
      (true, some { username := "carol"
                    password_hash := some ((fun _ => "h") "pw")
                    is_admin := pytruthy (PyVal.pyint 1) }) :=
  create_then_authenticate (fun _ => "h") (fun p s => p == "pw" && s == "h")
    "carol" "pw" (PyVal.pyint 1) [] (by simp) (by decide) (by decide)

/-! ## The Add Movement save flow -/

theorem itemLE_trans : ∀ (a b c : StockItem), itemLE a b → itemLE b c → itemLE a c := by
  intro a b c hab hbc
  simp only [itemLE, decide_eq_true_eq] at hab hbc ⊢
  rcases hab with h1 | ⟨h1, h2⟩ <;> rcases hbc with h3 | ⟨h3, h4⟩
  · exact Or.inl (lt_trans h1 h3)
  · exact Or.inl (h3 ▸ h1)
  · exact Or.inl (h1 ▸ h3)
  · exact Or.inr ⟨h1.trans h3, le_trans h2 h4⟩

theorem itemLE_total : ∀ (a b : StockItem), itemLE a b || itemLE b a := by
  intro a b
  simp only [itemLE, Bool.or_eq_true, decide_eq_true_eq]
  rcases lt_trichotomy a.exhibitor_name b.exhibitor_name with h | h | h
  · exact Or.inl (Or.inl h)
  · rcases le_total a.item_type b.item_type with h2 | h2
    · exact Or.inl (Or.inr ⟨h, h2⟩)
    · exact Or.inr (Or.inr ⟨h.symm, h2⟩)
  · exact Or.inr (Or.inl h)

/-- Filtering on an exact `(exhibitor_name, item_type)` key commutes
with the display sort: all matching rows share the sort key, and
`mergeSort` (like pandas' multi-key `sort_values`) is stable, so they
come out in their original relative order. -/
theorem filter_sortItems (items : List StockItem) (ex ty : String) :
    (sortItems items).filter (fun a => a.exhibitor_name == ex && a.item_type == ty) =
      items.filter (fun a => a.exhibitor_name == ex && a.item_type == ty) := by
  set p : StockItem → Bool := fun a => a.exhibitor_name == ex && a.item_type == ty with hp
  have hkey : ∀ a, p a = true → a.exhibitor_name = ex ∧ a.item_type = ty := by
    intro a ha
    rw [hp] at ha
    simpa [Bool.and_eq_true, beq_iff_eq] using ha
  have hpair : (items.filter p).Pairwise (fun a b => itemLE a b) := by
    apply List.pairwise_of_forall_mem_list
    intro a ha b hb
    obtain ⟨ha1, ha2⟩ := hkey a (List.mem_filter.mp ha).2
    obtain ⟨hb1, hb2⟩ := hkey b (List.mem_filter.mp hb).2
    simp only [itemLE, decide_eq_true_eq]
    exact Or.inr ⟨ha1.trans hb1.symm, le_of_eq (ha2.trans hb2.symm)⟩
  have hsub : List.Sublist (items.filter p) (sortItems items) :=
    List.sublist_mergeSort itemLE_trans itemLE_total hpair (List.filter_sublist items)
  have hsub2 : List.Sublist (items.filter p) ((sortItems items).filter p) := by
    have h1 := hsub.filter p
    have he : (items.filter p).filter p = items.filter p :=
      List.filter_eq_self.mpr (fun a ha => (List.mem_filter.mp ha).2)
    rwa [he] at h1
  have hlen : (items.filter p).length = ((sortItems items).filter p).length :=
    (((List.mergeSort_perm items itemLE).filter p).length_eq).symm
  exact (List.Sublist.eq_of_length hsub2 hlen).symm

/-- What `update_one` does when the collection's first filter match is
`it`: the collection splits as `pre ++ it :: post` with no match in
`pre`, and only `it`'s location is overwritten. -/
theorem update_one_split (items : List StockItem) (ex ty loc : String) (it : StockItem)
    (h : (items.filter (fun a => a.exhibitor_name == ex && a.item_type == ty)).head? =
      some it) :
    ∃ pre post,
      items = pre ++ it :: post ∧
      (∀ a ∈ pre, ¬(a.exhibitor_name = ex ∧ a.item_type = ty)) ∧
      update_one_location items ex ty loc =
        pre ++ { it with location := some loc } :: post := by
  induction items with
  | nil => simp at h
  | cons v rest ih =>
    rw [List.filter_cons] at h
    by_cases hv : v.exhibitor_name = ex ∧ v.item_type = ty
    · have hb : (v.exhibitor_name == ex && v.item_type == ty) = true := by
        simp [hv.1, hv.2]
      rw [if_pos hb, List.head?_cons, Option.some.injEq] at h
      subst h
      refine ⟨[], rest, rfl, by simp, ?_⟩
      rw [update_one_location, if_pos hv]
      simp
    · have hb : (v.exhibitor_name == ex && v.item_type == ty) = false := by
        rcases not_and_or.mp hv with h1 | h1
        · exact Bool.and_eq_false_iff.mpr (Or.inl (beq_eq_false_iff_ne.mpr h1))
        · exact Bool.and_eq_false_iff.mpr (Or.inr (beq_eq_false_iff_ne.mpr h1))
      rw [if_neg (by simp [hb])] at h
      obtain ⟨pre, post, h1, h2, h3⟩ := ih h
      refine ⟨v :: pre, post, by rw [List.cons_append, h1], ?_, ?_⟩
      · intro a ha
        rcases List.mem_cons.mp ha with rfl | hmem
        · exact hv
        · exact h2 a hmem
      · rw [update_one_location, if_neg hv, h3, List.cons_append]

/-- C7: A successful save on the movement-entry screen appends
exactly one movement record (the prior log is untouched), leaves every
item's `id`, `exhibitor_name`, `item_type` and `open_stock` unchanged,
and its only write to the item catalog overwrites the location of the
selected item — the first record matching the chosen
`(exhibitor, item type)` pair. -/
theorem movement_save_frame (st : AppState) (ex ty movement_type : String)
    (quantity : Int) (movement_date notes location_box : String) (it : StockItem)
    (hsel : selected_item st.items ex ty = some it) :
    (add_movement_save st ex ty movement_type quantity movement_date notes
        location_box).movements =
      st.movements ++ [newMovement it.id movement_date movement_type quantity notes] ∧
    (add_movement_save st ex ty movement_type quantity movement_date notes
        location_box).items.map
        (fun a => (a.id, a.exhibitor_name, a.item_type, a.open_stock)) =
      st.items.map (fun a => (a.id, a.exhibitor_name, a.item_type, a.open_stock)) ∧
    ∃ pre post,
      st.items = pre ++ it :: post ∧
      (∀ a ∈ pre, ¬(a.exhibitor_name = ex ∧ a.item_type = ty)) ∧
      (add_movement_save st ex ty movement_type quantity movement_date notes
          location_box).items =
        pre ++ { it with location := some (pyStrip location_box) } :: post := by
  have hh :
      (st.items.filter
        (fun a => a.exhibitor_name == ex && a.item_type == ty)).head? = some it := by
    rw [← filter_sortItems]
    exact hsel
  obtain ⟨pre, post, h1, h2, h3⟩ :=
    update_one_split st.items ex ty (pyStrip location_box) it hh
  refine ⟨?_, ?_, pre, post, h1, h2, ?_⟩
  · simp [add_movement_save, hsel]
  · simp only [add_movement_save, hsel]
    rw [h3, h1]
    simp
  · simp [add_movement_save, hsel, h3]

/-- Witness for `movement_save_frame`: saving an IN movement of 2 for
the only catalog item appends one movement and rewrites that item's
location. -/
theorem movement_save_frame_witness :
    (add_movement_save ⟨[⟨"id1", "Acme", "Book", some 3, some "Box 1"⟩], []⟩
        "Acme" "Book" "IN" 2 "2025-01-01" "note" " Box 2 ").movements =
      [] ++ [newMovement "id1" "2025-01-01" "IN" 2 "note"] ∧
    (add_movement_save ⟨[⟨"id1", "Acme", "Book", some 3, some "Box 1"⟩], []⟩
        "Acme" "Book" "IN" 2 "2025-01-01" "note" " Box 2 ").items.map
        (fun a => (a.id, a.exhibitor_name, a.item_type, a.open_stock)) =
      [(⟨"id1", "Acme", "Book", some 3, some "Box 1"⟩ : StockItem)].map
        (fun a => (a.id, a.exhibitor_name, a.item_type, a.open_stock)) ∧
    ∃ pre post,
      [(⟨"id1", "Acme", "Book", some 3, some "Box 1"⟩ : StockItem)] =
        pre ++ (⟨"id1", "Acme", "Book", some 3, some "Box 1"⟩ : StockItem) :: post ∧
      (∀ a ∈ pre, ¬(a.exhibitor_name = "Acme" ∧ a.item_type = "Book")) ∧
      (add_movement_save ⟨[⟨"id1", "Acme", "Book", some 3, some "Box 1"⟩], []⟩
          "Acme" "Book" "IN" 2 "2025-01-01" "note" " Box 2 ").items =
        pre ++
          { (⟨"id1", "Acme", "Book", some 3, some "Box 1"⟩ : StockItem) with
              location := some (pyStrip " Box 2 ") } :: post :=
  movement_save_frame ⟨[⟨"id1", "Acme", "Book", some 3, some "Box 1"⟩], []⟩
    "Acme" "Book" "IN" 2 "2025-01-01" "note" " Box 2 "
    ⟨"id1", "Acme", "Book", some 3, some "Box 1"⟩
    (by
      simp only [selected_item, sortItems, List.mergeSort_singleton]
      rfl)
